import Mathlib

/-!
Shallow embedding of the catalog data transformation and query-generation
core of the data-catalog repository:

* `src/site/src/scripts/bigquery.js` : `generateQuery`, `generatePythonRequest`
* `part_005`                         : `filterNestedColumns`, `generateQuery`
* `part_002`                         : `getProjectKeys`, `getDatasets`,
                                       `getDatasetByName`, `getDatasetNames`
* `src/site/src/utils/schema.js`     : `formatSchema`

JavaScript strings are modelled as Lean `String`; string primitives used by
the source (`includes`, `split('.')[0]`, `Array.prototype.join`,
`String.prototype.replace` with the regex `/LIMIT\s+\d+/i`, `split('\n')`)
are re-implemented structurally over `String.data` so that every definition
evaluates by kernel reduction.  JavaScript objects (`CatalogData`, `schema`)
are modelled as association lists in key insertion order, which is the
iteration order of `Object.keys` / `Object.entries`; keys are unique in a
JavaScript object.  `new Date(s).getTime()` is abstracted by storing the
parsed epoch-milliseconds value directly in `created_at : Int`; no claim
depends on date-string parsing itself.
-/

namespace DataCatalog

/-- One schema column: `{ type, description? }` (`description` optional),
as in the `ColumnInfo` typedef of `part_002`. -/
structure ColumnInfo where
  type : String
  description : Option String
deriving DecidableEq, Repr

/-- One table: `{ name, created_at, schema }`.  `created_at` holds the value
of `new Date(table.created_at).getTime()` (epoch milliseconds) already
parsed; `schema` is the column mapping in insertion order. -/
structure Table where
  name : String
  created_at : Int
  schema : List (String × ColumnInfo)
deriving DecidableEq, Repr

/-- A raw dataset entry: `{ description, tables }` (`DatasetRaw`). -/
structure DatasetRaw where
  description : String
  tables : List Table
deriving DecidableEq, Repr

/-- The parsed catalog document: project key ↦ (dataset name ↦ DatasetRaw),
modelled as nested association lists in key insertion order. -/
abbrev CatalogData := List (String × List (String × DatasetRaw))

/-- Aggregated dataset view built by `getDatasets` in `part_002`.
`lastUpdated` is `Math.max(...tables.map(t => new Date(t.created_at).getTime()))`;
`none` encodes the JavaScript value `-Infinity` that `Math.max()` returns on
an empty argument list. -/
structure Dataset where
  name : String
  project : String
  description : String
  tableCount : Nat
  lastUpdated : Option Int
deriving DecidableEq, Repr

/-- Full dataset view returned by `getDatasetByName` in `part_002`. -/
structure DatasetFull where
  name : String
  project : String
  description : String
  tables : List Table
deriving DecidableEq, Repr

/-- Typed failure kinds of the catalog lookups.  `notFound` models the
`throw new Error(`Dataset "..." not found in any project`)` at the end of
`getDatasetByName` in `part_002`. -/
inductive CatalogError where
  | notFound (datasetName : String)
deriving DecidableEq, Repr

/-- Display-ready column produced by `formatSchema` in `schema.js`. -/
structure FormattedColumn where
  name : String
  type : String
  description : String
deriving DecidableEq, Repr

/-! ## String primitives used by the source -/

/-- JavaScript `columnName.split('.')[0]`: the prefix of the string before
its first `'.'` (the whole string when it has no `'.'`). -/
def parentColumn (columnName : String) : String :=
  String.mk (columnName.data.takeWhile (fun c => c ≠ '.'))

/-- JavaScript `columnName.includes('.')`. -/
def hasDot (columnName : String) : Bool :=
  columnName.data.contains '.'

/-- JavaScript `Array.prototype.join(sep)`: `[] → ""`, one element →
itself, otherwise elements interleaved with `sep`. -/
def joinSep (sep : String) : List String → String
  | [] => ""
  | [x] => x
  | x :: y :: xs => x ++ sep ++ joinSep sep (y :: xs)

/-- JavaScript `Math.max(...xs)` over finitely many finite numbers:
`none` encodes the `-Infinity` returned for an empty argument list. -/
def mathMax : List Int → Option Int
  | [] => none
  | x :: xs =>
    match mathMax xs with
    | none => some x
    | some m => some (max x m)

/-! ## QueryGenerator (`bigquery.js`, `part_005`) -/

/-- The nested-column filter, `filterNestedColumns` of `part_005`
(lines 109–117); the filter inlined in `generateQuery` of `bigquery.js`
(lines 68–74) is the same code.  A column containing `'.'` is kept exactly
when the input does not also contain the prefix before its first `'.'`;
columns without `'.'` are always kept. -/
def filterNestedColumns (columnNames : List String) : List String :=
  columnNames.filter (fun columnName =>
    if hasDot columnName then
      !(columnNames.contains (parentColumn columnName))
    else
      true)

/-- The generated query when no columns were selected
(`bigquery.js` line 65). -/
def starQuery (projectKey datasetName tableName : String) : String :=
  "SELECT\n  *\nFROM `" ++ projectKey ++ "." ++ datasetName ++ "." ++
    tableName ++ "`\nLIMIT 100"

/-- `generateQuery` of `bigquery.js` (lines 63–78).  `columnNames` is
`string[]|null`; `none` models the JavaScript `null`, and
`!columnNames || columnNames.length === 0` is the `SELECT *` guard. -/
def generateQuery (projectKey datasetName tableName : String)
    (columnNames : Option (List String)) : String :=
  match columnNames with
  | none => starQuery projectKey datasetName tableName
  | some cols =>
    if cols.length = 0 then
      starQuery projectKey datasetName tableName
    else
      let filteredColumns := filterNestedColumns cols
      let formattedColumns := joinSep ",\n  " filteredColumns
      "SELECT\n  " ++ formattedColumns ++ "\nFROM `" ++ projectKey ++ "." ++
        datasetName ++ "." ++ tableName ++ "`\nLIMIT 100"

/-- Test whether `pat` is an initial segment of `s` (character-wise,
`String.prototype.startsWith` on the `List Char` model). -/
def listStartsWith : List Char → List Char → Bool
  | [], _ => true
  | _ :: _, [] => false
  | p :: ps, c :: cs => (p == c) && listStartsWith ps cs

/-- Test whether `pat` occurs as a contiguous substring of `s`
(JavaScript `s.includes(pat)`). -/
def listHasSub (pat : List Char) : List Char → Bool
  | [] => listStartsWith pat []
  | c :: cs => listStartsWith pat (c :: cs) || listHasSub pat cs

/-- JavaScript `s.includes(pat)` on `String`. -/
def strContains (s pat : String) : Bool :=
  listHasSub pat.data s.data

/-- JavaScript `s.endsWith(pat)` on `String`. -/
def strEndsWith (s pat : String) : Bool :=
  listStartsWith pat.data.reverse s.data.reverse

/-! ## generatePythonRequest (`bigquery.js` lines 194–241) -/

/-- The regex character class `\s`, restricted to ASCII whitespace (the
only whitespace characters that occur in the generator's inputs). -/
def isWs (c : Char) : Bool :=
  (c == ' ') || (c == '\t') || (c == '\n') || (c == '\r') ||
    (c == '\x0b') || (c == '\x0c')

/-- Greedy match of the regex `/LIMIT\s+\d+/i` anchored at the head of
`s`: `some n` when some prefix matches, `n` the length the greedy match
consumes (the character classes are disjoint, so the greedy match is the
maximal whitespace run followed by the maximal digit run). -/
def limitMatchLen (s : List Char) : Option Nat :=
  match s with
  | a :: b :: c :: d :: e :: rest =>
    if (a == 'L' || a == 'l') && (b == 'I' || b == 'i') &&
       (c == 'M' || c == 'm') && (d == 'I' || d == 'i') &&
       (e == 'T' || e == 't') then
      let wsRun := rest.takeWhile isWs
      if wsRun.length = 0 then none
      else
        let digRun := (rest.drop wsRun.length).takeWhile (fun ch => ch.isDigit)
        if digRun.length = 0 then none
        else some (5 + wsRun.length + digRun.length)
    else none
  | _ => none

/-- JavaScript `query.replace(/LIMIT\s+\d+/i, 'LIMIT @limit')`
(`bigquery.js` line 196): replace the leftmost match of the
(non-global, case-insensitive) regex, leave the string unchanged when
there is none. -/
def replaceFirstLimit : List Char → List Char
  | [] => []
  | c :: cs =>
    match limitMatchLen (c :: cs) with
    | some n => "LIMIT @limit".data ++ (c :: cs).drop n
    | none => c :: replaceFirstLimit cs

/-- The parametrized query of `generatePythonRequest`:
`query.replace(/LIMIT\s+\d+/i, 'LIMIT @limit')` on `String`. -/
def parametrizeLimit (s : String) : String :=
  String.mk (replaceFirstLimit s.data)

/-- JavaScript `s.split('\n')` (`[""]` on the empty string). -/
def splitLines : List Char → List (List Char)
  | [] => [[]]
  | c :: cs =>
    match splitLines cs with
    | [] => [[c]]
    | l :: ls => if c == '\n' then [] :: l :: ls else (c :: l) :: ls

/-- JavaScript `Array.prototype.join('\n')` on lines. -/
def joinLines : List (List Char) → List Char
  | [] => []
  | [l] => l
  | l :: l' :: ls => l ++ '\n' :: joinLines (l' :: ls)

/-- The indented query of `generatePythonRequest` (`bigquery.js` line
197): `` query.split('\n').map(line => `    ${line}`).join('\n') ``. -/
def indent4 (s : String) : String :=
  String.mk (joinLines ((splitLines s.data).map (fun l => "    ".data ++ l)))

/-- The fixed text of the Python template of `generatePythonRequest`
before the spliced `${indentedQuery}` (`bigquery.js` lines 199–216),
with `${projectKey}`, `${datasetName}` and `${tableName}` substituted. -/
def pythonRequestIntro (projectKey datasetName tableName : String) : String :=
  "from google.cloud import bigquery\n" ++
  "from google.api_core.exceptions import GoogleAPIError\n" ++
  "from google.auth.exceptions import DefaultCredentialsError\n" ++
  "\n" ++
  "# -----------------------------------------------------\n" ++
  "# Autenticação:\n" ++
  "# Antes de rodar o script execute:\n" ++
  "# gcloud auth application-default login\n" ++
  "# -----------------------------------------------------\n" ++
  "\n" ++
  "PROJECT_ID = \"" ++ projectKey ++ "\"\n" ++
  "TABLE_ID = \"" ++ projectKey ++ "." ++ datasetName ++ "." ++ tableName ++ "\"\n" ++
  "\n" ++
  "client = bigquery.Client(project=PROJECT_ID)\n" ++
  "\n" ++
  "def run_query(limit=100):\n" ++
  "    try:\n" ++
  "        query = \"\"\"\n"

/-- The fixed text of the Python template of `generatePythonRequest`
after the spliced `${indentedQuery}` (`bigquery.js` lines 218–240). -/
def pythonRequestOutro : String :=
  "\n        \"\"\"\n" ++
  "\n" ++
  "        job_config = bigquery.QueryJobConfig(\n" ++
  "            query_parameters=[\n" ++
  "                bigquery.ScalarQueryParameter(\"limit\", \"INT64\", limit),\n" ++
  "            ],\n" ++
  "            use_query_cache=True,\n" ++
  "            dry_run=False,\n" ++
  "        )\n" ++
  "\n" ++
  "        job = client.query(query, job_config=job_config)\n" ++
  "        results = job.result(timeout=60)\n" ++
  "\n" ++
  "        return [dict(row) for row in results]\n" ++
  "\n" ++
  "    except (GoogleAPIError, DefaultCredentialsError) as exc:\n" ++
  "        raise RuntimeError(f\"Erro ao executar query: {exc}\") from exc\n" ++
  "\n" ++
  "\n" ++
  "if __name__ == \"__main__\":\n" ++
  "    for row in run_query(limit=100):\n" ++
  "        print(row)\n"

/-- The character sequence of the SQL query of `generateQuery` up to (and
not including) its final fixed `LIMIT 100` clause, used to state how
`generatePythonRequest` rewrites that clause. -/
def sqlBody (projectKey datasetName tableName : String)
    (cols : List String) : List Char :=
  if cols.length = 0 then
    "SELECT\n  *\nFROM `".data ++ projectKey.data ++ ".".data ++
      datasetName.data ++ ".".data ++ tableName.data ++ "`\n".data
  else
    "SELECT\n  ".data ++ (joinSep ",\n  " (filterNestedColumns cols)).data ++
      "\nFROM `".data ++ projectKey.data ++ ".".data ++ datasetName.data ++
      ".".data ++ tableName.data ++ "`\n".data

/-- `generatePythonRequest` of `bigquery.js` (lines 194–241): the SQL of
`generateQuery`, its first `/LIMIT\s+\d+/i` match replaced by
`LIMIT @limit`, indented by four spaces per line and spliced into the
fixed Python template.  `selectedColumns` is always an array at the call
sites (`getSelectedColumns` returns one), hence `List String`. -/
def generatePythonRequest (projectKey datasetName tableName : String)
    (selectedColumns : List String) : String :=
  let query := generateQuery projectKey datasetName tableName (some selectedColumns)
  let parametrizedQuery := parametrizeLimit query
  let indentedQuery := indent4 parametrizedQuery
  pythonRequestIntro projectKey datasetName tableName ++ indentedQuery ++
    pythonRequestOutro

/-! ## CatalogStore (`part_002`) -/

/-- `getProjectKeys` of `part_002`: `Object.keys(catalog)` in insertion
order. -/
def getProjectKeys (catalog : CatalogData) : List String :=
  catalog.map Prod.fst

/-- `getDatasets` of `part_002` (lines 67–87): every project's datasets
flattened into aggregated `Dataset` views, in project order then dataset
insertion order.  Never fails: `Math.max` of an empty table list yields
`-Infinity` (here `none`). -/
def getDatasets (catalog : CatalogData) : List Dataset :=
  catalog.flatMap (fun proj =>
    proj.2.map (fun ds =>
      { name := ds.1
        project := proj.1
        description := ds.2.description
        tableCount := ds.2.tables.length
        lastUpdated := mathMax (ds.2.tables.map (fun t => t.created_at)) }))

/-- JavaScript property lookup `catalog[projectKey][datasetName]` on the
association-list model: the entry with the given key, if any. -/
def findDatasetEntry (datasets : List (String × DatasetRaw))
    (datasetName : String) : Option (String × DatasetRaw) :=
  datasets.find? (fun d => d.1 == datasetName)

/-- `getDatasetByName` of `part_002` (lines 94–110): scan projects in
`getProjectKeys` order, return the first project that has a dataset of the
given name (with that project's key attached), otherwise throw. -/
def getDatasetByName : CatalogData → String → Except CatalogError DatasetFull
  | [], datasetName => .error (.notFound datasetName)
  | (projectKey, datasets) :: rest, datasetName =>
    match findDatasetEntry datasets datasetName with
    | some entry =>
      .ok { name := datasetName
            project := projectKey
            description := entry.2.description
            tables := entry.2.tables }
    | none => getDatasetByName rest datasetName

/-- JavaScript `Set.prototype.add` on the insertion-ordered list model:
append the element unless it is already present. -/
def setAdd (acc : List String) (n : String) : List String :=
  if n ∈ acc then acc else acc ++ [n]

/-- Add every name of one project's dataset map to the accumulated set,
in insertion order. -/
def addNames (acc : List String) (names : List String) : List String :=
  names.foldl setAdd acc

/-- `getDatasetNames` of `part_002` (lines 116–128): dataset names of every
project accumulated into a `Set` and returned as `Array.from(set)`
(insertion order, first occurrence wins). -/
def getDatasetNames (catalog : CatalogData) : List String :=
  catalog.foldl (fun acc proj => addNames acc (proj.2.map Prod.fst)) []

/-! ## SchemaFormatter (`schema.js`) -/

/-- JavaScript `x || dflt` for a `string | undefined` value `x`: the
default replaces a missing value and the (falsy) empty string. -/
def jsOrDefault (s : Option String) (dflt : String) : String :=
  match s with
  | none => dflt
  | some v => if v = "" then dflt else v

/-- `formatSchema` of `schema.js` (lines 38–44): one `FormattedColumn` per
`Object.entries(schema)` entry in insertion order, defaulting the
description to `"Sem descrição"`. -/
def formatSchema (schema : List (String × ColumnInfo)) : List FormattedColumn :=
  schema.map (fun e =>
    { name := e.1
      type := e.2.type
      description := jsOrDefault e.2.description "Sem descrição" })

/-! ## Theorems: the nested-column filter (claims C1, C6, C10) -/

/-- Membership characterization of the nested-column filter: a column of
the input survives exactly when it has no dot, or its before-the-first-dot
prefix is not itself an input column. -/
theorem mem_filterNestedColumns {l : List String} {c : String} :
    c ∈ filterNestedColumns l ↔ c ∈ l ∧ (hasDot c = false ∨ parentColumn c ∉ l) := by
  unfold filterNestedColumns
  rw [List.mem_filter]
  by_cases hd : hasDot c <;> simp [hd, List.contains]

/-- Claim C1: the nested-column filter drops a dotted column exactly when
the prefix before its first dot is itself present in the input, keeps
every dot-free column, and preserves the relative input order of the
survivors (the output is a sublist of the input). -/
theorem C1_filterNestedColumns_membership (l : List String) :
    (filterNestedColumns l).Sublist l ∧
    ∀ c ∈ l, (c ∈ filterNestedColumns l ↔
      (hasDot c = false ∨ parentColumn c ∉ l)) := by
  refine ⟨List.filter_sublist l, fun c hc => ?_⟩
  rw [mem_filterNestedColumns]
  simp [hc]

/-- Witness for claim C1 at the input `["address", "address.city",
"name"]` and the column `"address.city"`. -/
theorem C1_filterNestedColumns_membership_witness :
    ("address.city" ∈ (["address", "address.city", "name"] : List String)) ∧
    ("address.city" ∈ filterNestedColumns ["address", "address.city", "name"] ↔
      (hasDot "address.city" = false ∨
        parentColumn "address.city" ∉ (["address", "address.city", "name"] : List String))) :=
  ⟨by decide,
    (C1_filterNestedColumns_membership ["address", "address.city", "name"]).2
      "address.city" (by decide)⟩

/-- Claim C6: the nested-column filter is idempotent.  A dotted column
surviving one pass has its parent outside the original input, hence
outside the (smaller) output, so a second pass keeps everything. -/
theorem C6_filterNestedColumns_idempotent (l : List String) :
    filterNestedColumns (filterNestedColumns l) = filterNestedColumns l := by
  apply List.filter_eq_self.mpr
  intro c hc
  have hmem := mem_filterNestedColumns.mp hc
  by_cases hd : hasDot c
  · have hpar : parentColumn c ∉ l := by
      rcases hmem.2 with h | h
      · rw [hd] at h; exact absurd h (by simp)
      · exact h
    have hsub : parentColumn c ∉ filterNestedColumns l := fun hx =>
      hpar (List.filter_sublist l |>.subset hx)
    simp [hd, List.contains, hsub]
  · simp [hd]

/-- Claim C10: only the prefix before the first dot is consulted, so a
dotted column is never removed on account of a dotted ancestor: any input
column whose first-dot prefix is absent survives, and in particular both
`"address.city"` and `"address.city.zip"` survive together and are both
emitted in the generated query. -/
theorem C10_no_dotted_ancestor_removal :
    (∀ (l : List String) (c : String), c ∈ l → hasDot c = true →
      parentColumn c ∉ l → c ∈ filterNestedColumns l) ∧
    filterNestedColumns ["address.city", "address.city.zip"] =
      ["address.city", "address.city.zip"] ∧
    generateQuery "p" "d" "t" (some ["address.city", "address.city.zip"]) =
      "SELECT\n  address.city,\n  address.city.zip\nFROM `p.d.t`\nLIMIT 100" :=
  ⟨fun _ _ hc _ hp => mem_filterNestedColumns.mpr ⟨hc, Or.inr hp⟩,
    by decide, by decide⟩

/-- Witness for claim C10 at the column `"address.city.zip"` of the input
`["address.city", "address.city.zip"]`. -/
theorem C10_no_dotted_ancestor_removal_witness :
    ("address.city.zip" ∈ (["address.city", "address.city.zip"] : List String)) ∧
    hasDot "address.city.zip" = true ∧
    parentColumn "address.city.zip" ∉ (["address.city", "address.city.zip"] : List String) ∧
    "address.city.zip" ∈ filterNestedColumns ["address.city", "address.city.zip"] :=
  ⟨by decide, by decide, by decide,
    C10_no_dotted_ancestor_removal.1 ["address.city", "address.city.zip"]
      "address.city.zip" (by decide) (by decide) (by decide)⟩

/-! ## Theorems: query shape (claim C4) -/

/-- Claim C4: an absent or empty column selection yields the `SELECT *`
query; a non-empty selection yields the filtered columns joined by
`",\n  "` after `"SELECT\n  "` (one column per line, two-space indent),
followed by the backtick-quoted fully-qualified reference and the fixed
`LIMIT 100`; in particular the `[]` instance contains `"SELECT\n  *"` and
ends with ``"`proj.ds.tbl`\nLIMIT 100"``. -/
theorem C4_generateQuery_shape :
    (∀ p d t : String, generateQuery p d t none =
      "SELECT\n  *\nFROM `" ++ p ++ "." ++ d ++ "." ++ t ++ "`\nLIMIT 100") ∧
    (∀ p d t : String, generateQuery p d t (some []) =
      "SELECT\n  *\nFROM `" ++ p ++ "." ++ d ++ "." ++ t ++ "`\nLIMIT 100") ∧
    (∀ (p d t : String) (cols : List String), cols ≠ [] →
      generateQuery p d t (some cols) =
        "SELECT\n  " ++ joinSep ",\n  " (filterNestedColumns cols) ++
          "\nFROM `" ++ p ++ "." ++ d ++ "." ++ t ++ "`\nLIMIT 100") ∧
    strContains (generateQuery "proj" "ds" "tbl" (some [])) "SELECT\n  *" = true ∧
    strEndsWith (generateQuery "proj" "ds" "tbl" (some [])) "`proj.ds.tbl`\nLIMIT 100" = true := by
  refine ⟨fun p d t => rfl, fun p d t => rfl, fun p d t cols h => ?_,
    by decide, by decide⟩
  match cols with
  | [] => exact absurd rfl h
  | c :: cs => rfl

/-- Witness for claim C4 at the non-empty selection `["a", "b"]`. -/
theorem C4_generateQuery_shape_witness :
    (["a", "b"] ≠ ([] : List String)) ∧
    generateQuery "proj" "ds" "tbl" (some ["a", "b"]) =
      "SELECT\n  " ++ joinSep ",\n  " (filterNestedColumns ["a", "b"]) ++
        "\nFROM `" ++ "proj" ++ "." ++ "ds" ++ "." ++ "tbl" ++ "`\nLIMIT 100" :=
  ⟨by decide, C4_generateQuery_shape.2.2.1 "proj" "ds" "tbl" ["a", "b"] (by decide)⟩

/-! ## Theorems: dataset aggregation (claim C2) -/

/-- Counterexample to claim C2: on a catalog whose only dataset has an
empty tables list, `getDatasets` does not fail — it is a total function
with no error channel and returns a `Dataset` view for that dataset, its
`lastUpdated` being `none` (the `-Infinity` of `Math.max()` with no
arguments). -/
theorem C2_counterexample_empty_tables_returns_view :
    getDatasets [("p1", [("ds1", { description := "d", tables := [] })])] =
      [{ name := "ds1", project := "p1", description := "d", tableCount := 0,
         lastUpdated := none }] := by
  decide

/-- Claim C2 as amended: for every catalog in which some dataset has an
empty tables list, `getDatasets` still returns a `Dataset` view for that
dataset, with `tableCount = 0` and `lastUpdated = none` (the JavaScript
`-Infinity`), instead of failing. -/
theorem C2_empty_tables_yields_neg_infinity (catalog : CatalogData)
    (pk dn : String) (dss : List (String × DatasetRaw)) (d : DatasetRaw)
    (hp : (pk, dss) ∈ catalog) (hd : (dn, d) ∈ dss) (ht : d.tables = []) :
    ({ name := dn, project := pk, description := d.description,
       tableCount := 0, lastUpdated := none } : Dataset) ∈ getDatasets catalog := by
  unfold getDatasets
  refine List.mem_flatMap.mpr ⟨(pk, dss), hp, List.mem_map.mpr ⟨(dn, d), hd, ?_⟩⟩
  simp [ht, mathMax]

/-- Witness for the amended claim C2 on a one-project catalog. -/
theorem C2_empty_tables_yields_neg_infinity_witness :
    (("p1", [("ds1", ({ description := "d", tables := [] } : DatasetRaw))]) ∈
      ([("p1", [("ds1", { description := "d", tables := [] })])] : CatalogData)) ∧
    ({ name := "ds1", project := "p1", description := "d", tableCount := 0,
       lastUpdated := none } : Dataset) ∈
      getDatasets [("p1", [("ds1", { description := "d", tables := [] })])] :=
  ⟨by decide,
    C2_empty_tables_yields_neg_infinity
      [("p1", [("ds1", { description := "d", tables := [] })])] "p1" "ds1"
      [("ds1", { description := "d", tables := [] })]
      { description := "d", tables := [] } (by decide) (by decide) rfl⟩

/-! ## Theorems: dataset lookup (claims C3, C5) -/

/-- Claim C3: when no project of the catalog contains a dataset of the
requested name, `getDatasetByName` fails with the typed `notFound` error
(and hence returns no object at all, partially populated or otherwise). -/
theorem C3_getDatasetByName_not_found (catalog : CatalogData) (n : String)
    (h : ∀ p ∈ catalog, ∀ e ∈ p.2, e.1 ≠ n) :
    getDatasetByName catalog n = .error (.notFound n) := by
  induction catalog with
  | nil => rfl
  | cons p rest ih =>
    obtain ⟨pk, dss⟩ := p
    have hfind : findDatasetEntry dss n = none := by
      unfold findDatasetEntry
      apply List.find?_eq_none.mpr
      intro e he
      simpa using h (pk, dss) (by simp) e he
    simp only [getDatasetByName, hfind]
    exact ih fun q hq e he => h q (List.mem_cons_of_mem _ hq) e he

/-- Witness for claim C3: the name `"does-not-exist"` on a one-project
catalog. -/
theorem C3_getDatasetByName_not_found_witness :
    (∀ p ∈ ([("p1", [("sales", { description := "desc", tables := [] })])] : CatalogData),
      ∀ e ∈ p.2, e.1 ≠ "does-not-exist") ∧
    getDatasetByName [("p1", [("sales", { description := "desc", tables := [] })])]
        "does-not-exist" = .error (.notFound "does-not-exist") :=
  ⟨by decide, C3_getDatasetByName_not_found _ "does-not-exist" (by decide)⟩

/-- Claim C5: `getDatasetByName` scans projects in `getProjectKeys` order
(the key insertion order of the document); when no project before
`(pk, dss)` contains the requested name and `dss` does, the result is
taken from `(pk, dss)` with `pk` attached as the `project` field —
whatever later projects (`post`) contain, so on a duplicated dataset name
the first-encountered project wins. -/
theorem C5_getDatasetByName_first_project_wins (pre : CatalogData) (pk : String)
    (dss : List (String × DatasetRaw)) (post : CatalogData) (n : String)
    (entry : String × DatasetRaw)
    (hpre : ∀ p ∈ pre, findDatasetEntry p.2 n = none)
    (hfound : findDatasetEntry dss n = some entry) :
    getDatasetByName (pre ++ (pk, dss) :: post) n =
      .ok { name := n, project := pk, description := entry.2.description,
            tables := entry.2.tables } := by
  induction pre with
  | nil => simp only [List.nil_append, getDatasetByName, hfound]
  | cons p ps ih =>
    obtain ⟨a, b⟩ := p
    have h0 : findDatasetEntry b n = none := hpre (a, b) (by simp)
    simp only [List.cons_append, getDatasetByName, h0]
    exact ih fun q hq => hpre q (List.mem_cons_of_mem _ hq)

/-- Witness for claim C5: `"sales"` exists under `"p1"` and `"p2"`; the
lookup returns the `"p1"` version with `project := "p1"`. -/
theorem C5_getDatasetByName_first_project_wins_witness :
    (∀ p ∈ ([("p0", [("other", { description := "o", tables := [] })])] : CatalogData),
      findDatasetEntry p.2 "sales" = none) ∧
    findDatasetEntry [("sales", { description := "d1", tables := [] })] "sales" =
      some ("sales", { description := "d1", tables := [] }) ∧
    getDatasetByName
        [("p0", [("other", { description := "o", tables := [] })]),
         ("p1", [("sales", { description := "d1", tables := [] })]),
         ("p2", [("sales", { description := "d2", tables := [] })])] "sales" =
      .ok { name := "sales", project := "p1", description := "d1", tables := [] } :=
  ⟨by decide, by decide,
    C5_getDatasetByName_first_project_wins
      [("p0", [("other", { description := "o", tables := [] })])] "p1"
      [("sales", { description := "d1", tables := [] })]
      [("p2", [("sales", { description := "d2", tables := [] })])] "sales"
      ("sales", { description := "d1", tables := [] })
      (by decide) (by decide)⟩

/-! ## Theorems: dataset-name listing (claim C9) -/

/-- Membership through one `Set.prototype.add` step. -/
theorem mem_setAdd {acc : List String} {m n : String} :
    n ∈ setAdd acc m ↔ n ∈ acc ∨ n = m := by
  unfold setAdd
  by_cases h : m ∈ acc
  · simp only [if_pos h]
    exact ⟨Or.inl, fun hn => hn.elim id (fun he => he ▸ h)⟩
  · simp [if_neg h]

/-- One `Set.prototype.add` step keeps the accumulated list
duplicate-free. -/
theorem nodup_setAdd {acc : List String} (h : acc.Nodup) (m : String) :
    (setAdd acc m).Nodup := by
  unfold setAdd
  by_cases hm : m ∈ acc
  · simpa [if_pos hm] using h
  · simp [if_neg hm, List.nodup_append, h, hm]

/-- Membership after adding one name list to the accumulated set. -/
theorem mem_addNames {names acc : List String} {n : String} :
    n ∈ addNames acc names ↔ n ∈ acc ∨ n ∈ names := by
  induction names generalizing acc with
  | nil => simp [addNames]
  | cons m ms ih =>
    show n ∈ addNames (setAdd acc m) ms ↔ _
    rw [ih, mem_setAdd]
    simp [or_assoc]

/-- Adding one name list keeps the accumulated set duplicate-free. -/
theorem nodup_addNames {names acc : List String} (h : acc.Nodup) :
    (addNames acc names).Nodup := by
  induction names generalizing acc with
  | nil => simpa [addNames] using h
  | cons m ms ih => exact ih (nodup_setAdd h m)

/-- Membership in the accumulated dataset-name set over any accumulator. -/
theorem mem_datasetNames_foldl (catalog : CatalogData) (acc : List String)
    (n : String) :
    n ∈ catalog.foldl (fun acc proj => addNames acc (proj.2.map Prod.fst)) acc ↔
      n ∈ acc ∨ ∃ p ∈ catalog, ∃ e ∈ p.2, e.1 = n := by
  induction catalog generalizing acc with
  | nil => simp
  | cons p ps ih =>
    simp only [List.foldl_cons]
    rw [ih, mem_addNames]
    simp only [List.mem_cons, List.mem_map]
    constructor
    · rintro ((h | ⟨e, he, rfl⟩) | ⟨q, hq, e, he, rfl⟩)
      · exact Or.inl h
      · exact Or.inr ⟨p, Or.inl rfl, e, he, rfl⟩
      · exact Or.inr ⟨q, Or.inr hq, e, he, rfl⟩
    · rintro (h | ⟨q, (rfl | hq), e, he, rfl⟩)
      · exact Or.inl (Or.inl h)
      · exact Or.inl (Or.inr ⟨e, he, rfl⟩)
      · exact Or.inr ⟨q, hq, e, he, rfl⟩

/-- The accumulated dataset-name set stays duplicate-free. -/
theorem nodup_datasetNames_foldl (catalog : CatalogData) (acc : List String)
    (h : acc.Nodup) :
    (catalog.foldl (fun acc proj => addNames acc (proj.2.map Prod.fst)) acc).Nodup := by
  induction catalog generalizing acc with
  | nil => simpa using h
  | cons p ps ih => exact ih _ (nodup_addNames h)

/-- Claim C9: `getDatasetNames` returns exactly the names occurring under
at least one project — sound, complete, and duplicate-free. -/
theorem C9_getDatasetNames_exact (catalog : CatalogData) (n : String) :
    (n ∈ getDatasetNames catalog ↔ ∃ p ∈ catalog, ∃ e ∈ p.2, e.1 = n) ∧
    (getDatasetNames catalog).Nodup := by
  unfold getDatasetNames
  constructor
  · rw [mem_datasetNames_foldl]
    simp
  · exact nodup_datasetNames_foldl _ _ (by simp)

/-! ## Theorems: schema formatting (claim C8) -/

/-- Claim C8: `formatSchema` emits one `FormattedColumn` per schema entry
in order, copying name and type, with the output description equal to the
source description except that a missing or empty one becomes the fixed
placeholder `"Sem descrição"`; in particular the `P6` instance holds. -/
theorem C8_formatSchema_spec (schema : List (String × ColumnInfo)) :
    (formatSchema schema).length = schema.length ∧
    formatSchema schema = schema.map (fun e =>
      { name := e.1
        type := e.2.type
        description :=
          match e.2.description with
          | none => "Sem descrição"
          | some dsc => if dsc = "" then "Sem descrição" else dsc }) ∧
    formatSchema [("col1", { type := "STRING", description := none })] =
      [{ name := "col1", type := "STRING", description := "Sem descrição" }] :=
  ⟨by simp [formatSchema], rfl, rfl⟩

/-! ## Theorems: Python snippet generation (claim C7) -/

/-- Appending distributes over `String.data`. -/
theorem data_append (a b : String) : (a ++ b).data = a.data ++ b.data := by
  cases a; cases b; rfl

/-- The SQL query of `generateQuery` on a present column selection is its
body followed by the fixed `LIMIT 100` clause. -/
theorem generateQuery_some_data (p d t : String) (cols : List String) :
    (generateQuery p d t (some cols)).data =
      sqlBody p d t cols ++ "LIMIT 100".data := by
  have hsplit : ("`\nLIMIT 100" : String).data =
      ("`\n" : String).data ++ ("LIMIT 100" : String).data := rfl
  cases cols with
  | nil => simp [generateQuery, starQuery, sqlBody, data_append, hsplit]
  | cons c cs => simp [generateQuery, sqlBody, data_append, hsplit]

/-- When the regex matches at no position inside `body`, the leftmost
replacement skips `body` entirely and happens inside `tail`. -/
theorem replaceFirstLimit_append (body tail : List Char)
    (h : ∀ n, n < body.length → limitMatchLen ((body ++ tail).drop n) = none) :
    replaceFirstLimit (body ++ tail) = body ++ replaceFirstLimit tail := by
  induction body with
  | nil => simp
  | cons c bs ih =>
    have h0 : limitMatchLen (c :: (bs ++ tail)) = none := by
      simpa using h 0 (by simp)
    rw [List.cons_append, replaceFirstLimit, h0]
    rw [ih fun n hn => by simpa using h (n + 1) (by simpa using Nat.succ_lt_succ hn)]
    simp

/-- A pattern matching a prefix of `a ++ b` matches `b` beyond `a`. -/
theorem listStartsWith_drop_of_append {pat a b : List Char}
    (h : listStartsWith pat (a ++ b) = true) :
    listStartsWith (pat.drop a.length) b = true := by
  induction a generalizing pat with
  | nil => simpa using h
  | cons x xs ih =>
    cases pat with
    | nil => simp [listStartsWith]
    | cons p ps =>
      rw [List.cons_append, listStartsWith, Bool.and_eq_true] at h
      simpa using ih h.2

/-- A pattern no longer than `a` that matches a prefix of `a ++ b`
matches a prefix of `a`. -/
theorem listStartsWith_of_append_left {pat a b : List Char}
    (hlen : pat.length ≤ a.length)
    (h : listStartsWith pat (a ++ b) = true) :
    listStartsWith pat a = true := by
  induction a generalizing pat with
  | nil =>
    cases pat with
    | nil => rfl
    | cons p ps => simp at hlen
  | cons x xs ih =>
    cases pat with
    | nil => rfl
    | cons p ps =>
      rw [List.cons_append, listStartsWith, Bool.and_eq_true] at h
      rw [listStartsWith, Bool.and_eq_true]
      exact ⟨h.1, ih (by simpa using hlen) h.2⟩

/-- A pattern matching a prefix of `a` matches a prefix of `a ++ b`. -/
theorem listStartsWith_append_right {pat a : List Char} (b : List Char)
    (h : listStartsWith pat a = true) :
    listStartsWith pat (a ++ b) = true := by
  induction a generalizing pat with
  | nil =>
    cases pat with
    | nil => rfl
    | cons p ps => simp [listStartsWith] at h
  | cons x xs ih =>
    cases pat with
    | nil => rfl
    | cons p ps =>
      rw [listStartsWith, Bool.and_eq_true] at h
      rw [List.cons_append, listStartsWith, Bool.and_eq_true]
      exact ⟨h.1, ih h.2⟩

/-- A string beginning with the literal `LIMIT 100` is matched by the
regex `/LIMIT\s+\d+/i` at its head. -/
theorem limitMatchLen_of_limit100 {s : List Char}
    (h : listStartsWith "LIMIT 100".data s = true) :
    limitMatchLen s ≠ none := by
  cases s with
  | nil => simp [listStartsWith] at h
  | cons a s1 =>
  cases s1 with
  | nil => simp [listStartsWith] at h
  | cons b s2 =>
  cases s2 with
  | nil => simp [listStartsWith] at h
  | cons c s3 =>
  cases s3 with
  | nil => simp [listStartsWith] at h
  | cons d s4 =>
  cases s4 with
  | nil => simp [listStartsWith] at h
  | cons e s5 =>
  cases s5 with
  | nil => simp [listStartsWith] at h
  | cons f s6 =>
  cases s6 with
  | nil => simp [listStartsWith] at h
  | cons g s7 =>
  cases s7 with
  | nil => simp [listStartsWith] at h
  | cons i s8 =>
  cases s8 with
  | nil => simp [listStartsWith] at h
  | cons j s9 =>
    simp only [listStartsWith, Bool.and_eq_true, beq_iff_eq] at h
    obtain ⟨ha, hb, hc, hd, he, hf, hg, hi, hj, -⟩ := h
    subst ha; subst hb; subst hc; subst hd; subst he; subst hf; subst hg
    subst hi; subst hj
    simp [limitMatchLen, isWs, List.takeWhile]

/-- When the regex does not match at the head of
`u ++ "LIMIT 100"`, the replaced text `u ++ "LIMIT @limit"` does not
begin with `LIMIT 100` either: an occurrence would either lie far enough
inside `u` to be a regex match of the original, or straddle into
`"LIMIT @limit"`, which agrees with no tail of `LIMIT 100`. -/
theorem no_limit100_occurrence_head (u : List Char)
    (hu : limitMatchLen (u ++ "LIMIT 100".data) = none) :
    listStartsWith "LIMIT 100".data (u ++ "LIMIT @limit".data) = false := by
  by_contra hcon
  have h' : listStartsWith "LIMIT 100".data (u ++ "LIMIT @limit".data) = true := by
    simpa using hcon
  rcases le_or_lt 9 u.length with h9 | h9
  · have hWu : listStartsWith "LIMIT 100".data u = true :=
      listStartsWith_of_append_left (by simpa using h9) h'
    exact limitMatchLen_of_limit100 (listStartsWith_append_right _ hWu) hu
  · have hdrop : listStartsWith ("LIMIT 100".data.drop u.length)
        "LIMIT @limit".data = true := listStartsWith_drop_of_append h'
    rcases Nat.eq_zero_or_pos u.length with hz | hpos
    · rw [hz] at hdrop
      exact absurd hdrop (by decide)
    · have h1 : 1 ≤ u.length := hpos
      generalize hk : u.length = k at hdrop h9 h1
      interval_cases k <;> exact absurd hdrop (by decide)

/-- When the regex matches at no position inside `body`, the literal
`LIMIT 100` does not occur anywhere in `body ++ "LIMIT @limit"`. -/
theorem no_limit100_in_result (body : List Char)
    (h : ∀ n, n < body.length →
      limitMatchLen ((body ++ "LIMIT 100".data).drop n) = none) :
    listHasSub "LIMIT 100".data (body ++ "LIMIT @limit".data) = false := by
  induction body with
  | nil => decide
  | cons c bs ih =>
    rw [List.cons_append, listHasSub]
    have hhead : listStartsWith "LIMIT 100".data
        (c :: (bs ++ "LIMIT @limit".data)) = false := by
      have h0 : limitMatchLen ((c :: bs) ++ "LIMIT 100".data) = none := by
        simpa using h 0 (by simp)
      simpa using no_limit100_occurrence_head (c :: bs) h0
    rw [hhead]
    have hrest := ih fun n hn => by
      simpa using h (n + 1) (by simpa using Nat.succ_lt_succ hn)
    simpa using hrest

set_option maxRecDepth 40000 in
/-- Counterexample to claim C7 as universally stated: for the column
selection `["limit 5"]` the non-global, case-insensitive
`replace(/LIMIT\s+\d+/i, 'LIMIT @limit')` hits the column text first, so
the fixed `LIMIT 100` survives in the embedded query of the generated
Python snippet. -/
theorem C7_counterexample_column_named_limit :
    parametrizeLimit (generateQuery "proj" "ds" "tbl" (some ["limit 5"])) =
      "SELECT\n  LIMIT @limit\nFROM `proj.ds.tbl`\nLIMIT 100" ∧
    strContains (generatePythonRequest "proj" "ds" "tbl" ["limit 5"])
        "LIMIT 100" = true :=
  ⟨by decide, by decide⟩

/-- Claim C7 as amended: the Python snippet embeds the SQL query with the
first case-insensitive `LIMIT`‑whitespace‑digits occurrence replaced by
the named parameter `LIMIT @limit`; whenever no such occurrence starts
before the final fixed `LIMIT 100` clause (true of ordinary column
names), that final clause is the one replaced, and `LIMIT 100` does not
survive anywhere in the embedded query text. -/
theorem C7_pythonRequest_parametrizes_final_limit (p d t : String)
    (cols : List String)
    (h : ∀ n, n < (sqlBody p d t cols).length →
      limitMatchLen ((generateQuery p d t (some cols)).data.drop n) = none) :
    (parametrizeLimit (generateQuery p d t (some cols))).data =
        sqlBody p d t cols ++ "LIMIT @limit".data ∧
    generatePythonRequest p d t cols =
      pythonRequestIntro p d t ++
        indent4 (String.mk (sqlBody p d t cols ++ "LIMIT @limit".data)) ++
        pythonRequestOutro ∧
    strContains (String.mk (sqlBody p d t cols ++ "LIMIT @limit".data))
        "LIMIT 100" = false := by
  have hq := generateQuery_some_data p d t cols
  have h' : ∀ n, n < (sqlBody p d t cols).length →
      limitMatchLen ((sqlBody p d t cols ++ "LIMIT 100".data).drop n) = none := by
    intro n hn
    have := h n hn
    rwa [hq] at this
  have hrepl : replaceFirstLimit ((generateQuery p d t (some cols)).data) =
      sqlBody p d t cols ++ "LIMIT @limit".data := by
    rw [hq, replaceFirstLimit_append _ _ h']
    congr 1
  have hparam : parametrizeLimit (generateQuery p d t (some cols)) =
      String.mk (sqlBody p d t cols ++ "LIMIT @limit".data) :=
    congrArg String.mk hrepl
  refine ⟨hrepl, ?_, no_limit100_in_result _ h'⟩
  have hdef : generatePythonRequest p d t cols =
      pythonRequestIntro p d t ++
        indent4 (parametrizeLimit (generateQuery p d t (some cols))) ++
        pythonRequestOutro := rfl
  rw [hdef, hparam]

set_option maxRecDepth 40000 in
/-- Witness for the amended claim C7 at the ordinary selection
`["a", "b.c"]`. -/
theorem C7_pythonRequest_parametrizes_final_limit_witness :
    (∀ n, n < (sqlBody "proj" "ds" "tbl" ["a", "b.c"]).length →
      limitMatchLen ((generateQuery "proj" "ds" "tbl"
        (some ["a", "b.c"])).data.drop n) = none) ∧
    generatePythonRequest "proj" "ds" "tbl" ["a", "b.c"] =
      pythonRequestIntro "proj" "ds" "tbl" ++
        indent4 (String.mk (sqlBody "proj" "ds" "tbl" ["a", "b.c"] ++
          "LIMIT @limit".data)) ++
        pythonRequestOutro ∧
    strContains (String.mk (sqlBody "proj" "ds" "tbl" ["a", "b.c"] ++
        "LIMIT @limit".data)) "LIMIT 100" = false := by
  have happ := C7_pythonRequest_parametrizes_final_limit "proj" "ds" "tbl"
    ["a", "b.c"] (by decide)
  exact ⟨by decide, happ.2.1, happ.2.2⟩

end DataCatalog
